import Mathlib

/-!
# Verification of the gentl-node generation pipeline (src/index.ts)

Shallow embedding of the core of `GentlNode`:

* a POSIX path model (`path.resolve`, `path.relative`, `path.join`,
  `path.normalize` restricted to absolute bases, `path.extname`,
  `path.parse(..).name`) over segment lists;
* `validateOutputPath` (the output-path sandbox);
* `mergeData` (JS object-spread merge `{...fileData, ...baseData}`);
* `applyNamingRule` / `getNestedProperty` (naming-rule expansion);
* the include resolver closure built by `buildIncludeIo`, with the file
  cache, the read trace, the engine-invocation trace and the log trace
  made explicit;
* `setBaseData` with explicit instance state;
* the batch loop of `generateFiles` with an explicit
  file-system/parser/engine environment and an explicit trace of the
  writes it performs.

An absolute POSIX path is modelled as its list of segments:
`/a/b` is `["a", "b"]`, the file-system root `/` is `[]`.
The external template engine, `JSON.parse` and the file system are
collaborators and enter as function parameters.
-/

/-- Absolute POSIX path, as the list of its segments (`/a/b` = `["a","b"]`). -/
abbrev AbsPath := List String

/-- JS `String.prototype.startsWith`: the characters of `p` are a prefix
of the characters of `s`. -/
def strStartsWith (s p : String) : Bool :=
  p.toList.isPrefixOf s.toList

/-- Split a list of characters on a separator, accumulating the current
piece in reverse (the semantics of JS `String.prototype.split` with a
single-character separator: empty pieces are kept). -/
def splitAllAux (sep : Char) : List Char → List Char → List String
  | [], acc => [String.mk acc.reverse]
  | c :: cs, acc =>
    if c = sep then String.mk acc.reverse :: splitAllAux sep cs []
    else splitAllAux sep cs (c :: acc)

/-- JS `s.split(sep)` for a one-character separator. -/
def splitOnChar (sep : Char) (s : String) : List String :=
  splitAllAux sep s.toList []

/-- Split a path string on `/`, discarding empty pieces (this is how the
segments of a POSIX path string are extracted; leading `/`, trailing `/`
and doubled `//` produce empty pieces, which POSIX path parsing drops). -/
def splitPath (s : String) : List String :=
  (splitOnChar '/' s).filter (fun seg => seg ≠ "")

/-- `path.isAbsolute` on POSIX: the string starts with `/`. -/
def isAbsStr (s : String) : Bool :=
  strStartsWith s "/"

/-- One segment of absolute-path normalization: `.` is dropped, `..` pops
the last segment (and is dropped at the file-system root), anything else
is kept. -/
def normStep (acc : List String) (seg : String) : List String :=
  if seg = "." then acc
  else if seg = ".." then acc.dropLast
  else acc ++ [seg]

/-- The segment semantics of `path.normalize` applied to an absolute
path. -/
def normalizeAbs (segs : List String) : List String :=
  segs.foldl normStep []

/-- `path.resolve(base, p)` for an absolute `base`: an absolute `p`
ignores the base, a relative `p` is appended to it; the result is
normalized. -/
def resolvePath (base : AbsPath) (p : String) : AbsPath :=
  if isAbsStr p then normalizeAbs (splitPath p)
  else normalizeAbs (base ++ splitPath p)

/-- `path.join(base, p)` for an absolute `base`: concatenation followed by
normalization (unlike `resolve`, a leading `/` on `p` does not restart
from the root: `join("/a", "/x") = "/a/x"`). -/
def joinPath (base : AbsPath) (p : String) : AbsPath :=
  normalizeAbs (base ++ splitPath p)

/-- Drop the longest common prefix of two segment lists, returning the two
remainders. -/
def dropCommonPrefix : List String → List String → List String × List String
  | a :: as, b :: bs =>
    if a = b then dropCommonPrefix as bs else (a :: as, b :: bs)
  | as, bs => (as, bs)

/-- Segments of `path.relative(fromP, toP)` for absolute arguments: one
`..` per remaining `fromP` segment, then the remaining `toP` segments. -/
def relSegs (fromP toP : AbsPath) : List String :=
  let rest := dropCommonPrefix fromP toP
  List.replicate rest.1.length ".." ++ rest.2

/-- Join segments with `/` (the string form of a relative path; `[]`
joins to `""`, as `path.relative` returns for equal arguments). -/
def joinSegs : List String → String
  | [] => ""
  | [s] => s
  | s :: rest => s ++ "/" ++ joinSegs rest

/-- `path.relative(fromP, toP)` as a string. -/
def relStr (fromP toP : AbsPath) : String :=
  joinSegs (relSegs fromP toP)

/-- `p` is equal to or a descendant of `root`. -/
def isDescendant (root p : AbsPath) : Prop :=
  root <+: p

instance (root p : AbsPath) : Decidable (isDescendant root p) := by
  unfold isDescendant; infer_instance

/-- A well-formed normalized absolute directory (what `path.resolve`
produces for the constructor's `rootDir`): no empty, `.` or `..`
segments, no `/` inside a segment. -/
def NormRoot (p : AbsPath) : Prop :=
  ∀ s ∈ p, s ≠ "" ∧ s ≠ "." ∧ s ≠ ".." ∧ '/' ∉ s.toList

/-- `GentlNode.validateOutputPath` (src/index.ts lines 181–191): resolve
the candidate against the output root, compute the relative path from the
root to it, and reject when that string starts with `..` or is absolute;
otherwise return the resolved path. -/
def validateOutputPath (rootDir : AbsPath) (filePath : String) :
    Except String AbsPath :=
  let resolvedPath := resolvePath rootDir filePath
  let relativePath := relStr rootDir resolvedPath
  if strStartsWith relativePath ".." || isAbsStr relativePath then
    .error "must be within the output root directory"
  else
    .ok resolvedPath

/-- The spec's rejection condition for `validate`, modelled from its
words: the relative path from root to the resolved candidate "must not
begin with a parent-directory segment and must not itself be an absolute
path" — i.e. its first *segment* is `..`, or it is absolute. -/
def specRejectCondition (rootDir : AbsPath) (filePath : String) : Bool :=
  let rel := relSegs rootDir (resolvePath rootDir filePath)
  rel.head? = some ".." || isAbsStr (joinSegs rel)

/-- Is an `Except` an error? -/
def isError {ε α : Type} : Except ε α → Bool
  | .error _ => true
  | .ok _ => false

instance {ε α : Type} [DecidableEq ε] [DecidableEq α] :
    DecidableEq (Except ε α) := fun a b =>
  match a, b with
  | .error e, .error f =>
    if h : e = f then isTrue (by rw [h])
    else isFalse (by intro hh; cases hh; exact h rfl)
  | .ok x, .ok y =>
    if h : x = y then isTrue (by rw [h])
    else isFalse (by intro hh; cases hh; exact h rfl)
  | .error _, .ok _ => isFalse (by intro h; cases h)
  | .ok _, .error _ => isFalse (by intro h; cases h)

/-! ## Records and `mergeData` -/

/-- A JS object, as its ordered list of own properties (a JS object never
holds two properties with the same key; where a proof needs that, it takes
it as a `Nodup` hypothesis on the key list). -/
abbrev JsRecord (α : Type) := List (String × α)

/-- JS property read `r[k]`: the value of the property named `k`. -/
def recLookup {α : Type} (r : JsRecord α) (k : String) : Option α :=
  match r.find? (fun p => p.1 = k) with
  | some p => some p.2
  | none => none

/-- JS property write during object-literal construction: overwrite the
value in place when the key exists, append otherwise. -/
def setKey {α : Type} (r : JsRecord α) (k : String) (v : α) : JsRecord α :=
  if (recLookup r k).isSome then
    r.map (fun p => if p.1 = k then (k, v) else p)
  else
    r ++ [(k, v)]

/-- `GentlNode.mergeData` (src/index.ts lines 174–176): the object-literal
spread `{...fileData, ...baseData}` — start from `fileData`'s properties
and assign each of `baseData`'s properties over them in order. -/
def mergeData {α : Type} (fileData baseData : JsRecord α) : JsRecord α :=
  baseData.foldl (fun acc p => setKey acc p.1 p.2) fileData

/-! ## JSON values and the naming-rule engine -/

/-- JSON-like values (what `JSON.parse` produces; numbers restricted to
integers, which is all the naming-rule claims exercise). -/
inductive Json where
  | null : Json
  | bool (b : Bool) : Json
  | num (n : Int) : Json
  | str (s : String) : Json
  | arr (elems : List Json) : Json
  | obj (fields : List (String × Json)) : Json

/-- JS truthiness of a JSON value (`null`, `false`, `0` and `""` are
falsy; every object and array is truthy). -/
def truthy : Json → Bool
  | .null => false
  | .bool b => b
  | .num n => n ≠ 0
  | .str s => s ≠ ""
  | .arr _ => true
  | .obj _ => true

/-- JS property read `current[key]` on a JSON value: only objects have
own properties; reading a key off a primitive or an array yields
`undefined` (array element access through canonical numeric strings and
prototype properties such as `"length"` are outside the JSON data this
program indexes by naming-rule paths and are not modelled). -/
def jsProp : Json → String → Option Json
  | .obj fields, key => recLookup fields key
  | _, _ => none

/-- `GentlNode.getNestedProperty` (src/index.ts lines 483–487):
`path.split('.').reduce((current, key) => current && current[key] !==
undefined ? current[key] : undefined, obj)`. `none` is JS `undefined`. -/
def getNestedProperty (obj : Json) (path : String) : Option Json :=
  (splitOnChar '.' path).foldl
    (fun current key =>
      match current with
      | some c => if truthy c then jsProp c key else none
      | none => none)
    (some obj)

/-- Join strings with a separator. -/
def joinWith (sep : String) : List String → String
  | [] => ""
  | [s] => s
  | s :: rest => s ++ sep ++ joinWith sep rest

mutual

/-- JS `toString()` of a JSON value: numbers and booleans print
naturally, strings are themselves, arrays join their elements with `,`
(`null` elements joining as the empty string), plain objects print as
`[object Object]`. The `.null` case is only reachable as an array
element. -/
def jsToString : Json → String
  | .null => ""
  | .bool b => if b then "true" else "false"
  | .num n => toString n
  | .str s => s
  | .arr elems => jsToStringList elems
  | .obj _ => "[object Object]"

/-- Array elements joined by `,` (JS `Array.prototype.toString`). -/
def jsToStringList : List Json → String
  | [] => ""
  | [v] => jsToString v
  | v :: rest => jsToString v ++ "," ++ jsToStringList rest

end

/-- The replacement `value?.toString() || 'undefined'` from
`applyNamingRule`: `undefined` and `null` short-circuit the optional
chaining to `undefined`, and a falsy stringification (the empty string)
falls through `||` to `'undefined'`. -/
def tokenValueString (value : Option Json) : String :=
  match value with
  | none => "undefined"
  | some .null => "undefined"
  | some v => if jsToString v = "" then "undefined" else jsToString v

/-- One fuelled step list for `String.prototype.replace` with a global
literal pattern: replace every occurrence of `pat` (left to right,
non-overlapping) with `repl`.  Each step consumes at least one character,
so `fuel = cs.length` (which the wrapper below supplies) always
suffices; the `0` case is never reached from the wrapper. -/
def replaceAllFuel (pat repl : List Char) : Nat → List Char → List Char
  | 0, cs => cs
  | _ + 1, [] => []
  | fuel + 1, c :: rest =>
    if pat ≠ [] ∧ pat.isPrefixOf (c :: rest) = true then
      repl ++ replaceAllFuel pat repl fuel ((c :: rest).drop pat.length)
    else
      c :: replaceAllFuel pat repl fuel rest

/-- JS `s.replace(/pat/g, repl)` for a literal pattern `pat`. -/
def replaceAll (pat repl s : String) : String :=
  String.mk (replaceAllFuel pat.toList repl.toList s.toList.length s.toList)

/-- Scan a non-empty run of non-`}` characters followed by `}` (the
`([^}]+)\}` tail of the `{data.` token regex); returns the captured run
and the remainder after the `}`. -/
def scanProp (cs : List Char) : Option (List Char × List Char) :=
  match cs.takeWhile (fun c => c ≠ '}'), cs.dropWhile (fun c => c ≠ '}') with
  | [], _ => none
  | p, '}' :: rest => some (p, rest)
  | _, _ => none

/-- Match the token regex `\{data\.([^}]+)\}` at the head of the
character list; returns the captured property path and the remainder
after the match. -/
def findDataToken (cs : List Char) : Option (List Char × List Char) :=
  if cs.take 6 = "\x7bdata.".toList then scanProp (cs.drop 6) else none

/-- Fuelled scanner for the `{data.<path>}` replacement pass
(`filename.replace(/\{data\.([^}]+)\}/g, ...)` in `applyNamingRule`): at
each position, if the token regex matches, emit
`value?.toString() || 'undefined'` for the looked-up value and continue
after the match, otherwise emit the character and move on.  A successful
match consumes at least seven characters, so `fuel = cs.length` always
suffices. -/
def replaceDataFuel (ctx : Json) : Nat → List Char → List Char
  | 0, cs => cs
  | _ + 1, [] => []
  | fuel + 1, c :: rest =>
    match findDataToken (c :: rest) with
    | some (prop, rest2) =>
      (tokenValueString (getNestedProperty ctx (String.mk prop))).toList
        ++ replaceDataFuel ctx fuel rest2
    | none => c :: replaceDataFuel ctx fuel rest

/-- The `{data.<dotted.path>}` replacement pass of `applyNamingRule`. -/
def replaceDataTokens (ctx : Json) (s : String) : String :=
  String.mk (replaceDataFuel ctx s.toList.length s.toList)

/-- The context `applyNamingRule` is called with: the 0-based batch
index, the merged data record, and (in batch mode) the data file's stem. -/
structure NamingContext where
  index : Nat
  data : Json
  fileName : Option String := none

/-- `GentlNode.applyNamingRule` (src/index.ts lines 460–478): replace
every `{index}` with the decimal index, then (when a `fileName` was
supplied — JS truthiness, so an empty string also skips) every
`{fileName}` with it, then every `{data.<path>}` token with
`value?.toString() || 'undefined'` for the nested lookup of `<path>`. -/
def applyNamingRule (namingRule : String) (context : NamingContext) : String :=
  let filename := namingRule
  let filename := replaceAll "{index}" (toString context.index) filename
  let filename :=
    match context.fileName with
    | some fn => if fn = "" then filename else replaceAll "{fileName}" fn filename
    | none => filename
  replaceDataTokens context.data filename

/-! ## Directory-entry helpers (`path.extname`, `path.parse(..).name`) -/

/-- `path.extname` of a directory-entry name (no `/` inside): the
substring from the last `.` on, empty when there is no `.` or when the
only `.` is the leading character (a dotfile has no extension). -/
def extname (s : String) : String :=
  let rs := s.toList.reverse
  match rs.dropWhile (fun c => c ≠ '.') with
  | [] => ""
  | [_] => ""
  | _ :: _ :: _ => String.mk ('.' :: (rs.takeWhile (fun c => c ≠ '.')).reverse)

/-- JS `String.prototype.toLowerCase` (ASCII, which is all `.json`
matching needs). -/
def strToLower (s : String) : String :=
  String.mk (s.toList.map Char.toLower)

/-- `path.parse(s).name` for a directory-entry name: the name with its
`extname` removed. -/
def fileStem (s : String) : String :=
  String.mk (s.toList.take (s.toList.length - (extname s).toList.length))

/-! ## The include resolver (`buildIncludeIo`'s closure) -/

/-- The observable state threaded through include resolutions: the
instance's raw-content cache (`this.fileContentCache`), plus traces of
the file reads issued, the external-engine invocations made (raw content
and scoped data of each), and the log entries emitted. -/
structure IncTrace where
  fileContentCache : JsRecord String
  readsPerformed : List AbsPath
  engineCalls : List (String × JsRecord Json)
  logs : List (String × String)

/-- The include resolver closure returned by `GentlNode.buildIncludeIo`
(src/index.ts lines 383–418).  `includeFileMap` is the catalog built by
`buildIncludeFileMap`; `readFile` is `fs.readFile` (`none` = I/O error);
`engine` is the external `gentlProcess` applied to the fragment with
`scopedData || {}` (its recursive use of the resolver itself is internal
to this collaborator).  A `none` `scopedData` is a call without the
optional `baseData` argument.  Returns the updated state and the
rendered string or the thrown error. -/
def includeIoModel
    (includeFileMap : JsRecord AbsPath)
    (includeNotFoundHandler : Option (String → Option (JsRecord Json) → String))
    (readFile : AbsPath → Option String)
    (engine : String → JsRecord Json → String)
    (key : String) (scopedData : Option (JsRecord Json))
    (st : IncTrace) : IncTrace × Except String String :=
  match recLookup includeFileMap key with
  | none =>
    let st := { st with
      logs := st.logs ++ [("warn", "Include file not found: " ++ key)] }
    match includeNotFoundHandler with
    | some handler =>
      ({ st with logs := st.logs ++
          [("info", "Using include not found handler for key: " ++ key)] },
       .ok (handler key scopedData))
    | none =>
      let errorMessage :=
        "Include file not found and no include not found handler provided: "
          ++ key
      ({ st with logs := st.logs ++ [("error", errorMessage)] },
       .error errorMessage)
  | some filePath =>
    match recLookup st.fileContentCache key with
    | some content =>
      ({ st with engineCalls := st.engineCalls ++ [(content, scopedData.getD [])] },
       .ok (engine content (scopedData.getD [])))
    | none =>
      match readFile filePath with
      | none =>
        ({ st with readsPerformed := st.readsPerformed ++ [filePath] },
         .error "file read failed")
      | some content =>
        let st := { st with
          readsPerformed := st.readsPerformed ++ [filePath],
          fileContentCache := setKey st.fileContentCache key content }
        ({ st with engineCalls := st.engineCalls ++ [(content, scopedData.getD [])] },
         .ok (engine content (scopedData.getD [])))

/-! ## Base-data lifecycle (`setBaseData`) -/

/-- The per-instance state the base-data lifecycle touches. -/
structure GentlState where
  baseData : JsRecord Json

/-- `GentlNode.getBaseData` (src/index.ts lines 159–161): returns
`{ ...this.baseData }`; the defensive copy is equal to the stored record
as a value. -/
def getBaseData (st : GentlState) : JsRecord Json :=
  st.baseData

/-- `GentlNode.setBaseData` (src/index.ts lines 133–154): resolve the
path against the working directory, read it (`none` = I/O failure),
`JSON.parse` it (`none` = malformed), and only then assign
`this.baseData`; any failure is logged, wrapped and re-thrown, leaving
the instance state untouched.  Returns the state after the call and the
thrown error message, if any. -/
def setBaseData (readFile : AbsPath → Option String)
    (parse : String → Option (JsRecord Json)) (cwd : AbsPath)
    (st : GentlState) (baseDataPath : String) :
    GentlState × Option String :=
  let resolvedBaseDataPath := resolvePath cwd baseDataPath
  match readFile resolvedBaseDataPath with
  | none => (st, some "Failed to load base data")
  | some baseDataContent =>
    match parse baseDataContent with
    | none => (st, some "Failed to load base data")
    | some parsed => ({ st with baseData := parsed }, none)

/-! ## Batch generation (`generateFiles`) -/

/-- The collaborators batch generation calls out to: the file system
(`fs.readFile`, `fs.readdir`; `none` = I/O error), `JSON.parse` of a
data record, and the external template engine `gentlProcess` applied to
the template and the merged data (the include resolver it is given is
internal to this collaborator). -/
structure BatchEnv where
  readFile : AbsPath → Option String
  readdir : AbsPath → Option (List String)
  parse : String → Option (JsRecord Json)
  engine : String → JsRecord Json → String

/-- The observable outcome of a `generateFiles` call: the
`fs.writeFile` calls performed, in order, and the returned list of
root-relative paths or the thrown error. -/
structure BatchResult where
  writes : List (AbsPath × String)
  result : Except String (List String)

/-- The per-item loop of `GentlNode.generateFiles` (src/index.ts lines
308–349): read and parse each data file, merge with the base data,
expand the naming rule with the 0-based index and the file stem, join
onto the validated output directory, render, write, and record the
root-relative output path; the first failure aborts, keeping the writes
already performed. -/
def processBatchItems (env : BatchEnv) (rootDir resolvedDataPath
    resolvedOutputDir : AbsPath) (html namingRule : String)
    (baseData : JsRecord Json) :
    List String → Nat → List (AbsPath × String) → List String → BatchResult
  | [], _, writes, _generatedFiles => ⟨writes, .ok _generatedFiles⟩
  | jsonFile :: restFiles, index, writes, generatedFiles =>
    let jsonFilePath := resolvedDataPath ++ [jsonFile]
    match env.readFile jsonFilePath with
    | none =>
      ⟨writes, .error ("Failed to generate files: read error: " ++ jsonFile)⟩
    | some dataContent =>
      match env.parse dataContent with
      | none =>
        ⟨writes, .error ("Failed to generate files: parse error: " ++ jsonFile)⟩
      | some fileData =>
        let data := mergeData fileData baseData
        let filename := applyNamingRule namingRule
          ⟨index, .obj data, some (fileStem jsonFile)⟩
        let outputPath := joinPath resolvedOutputDir filename
        let rendered := env.engine html data
        let relativeOutputPath := relStr rootDir outputPath
        processBatchItems env rootDir resolvedDataPath resolvedOutputDir
          html namingRule baseData restFiles (index + 1)
          (writes ++ [(outputPath, rendered)])
          (generatedFiles ++ [relativeOutputPath])

/-- `GentlNode.generateFiles` (src/index.ts lines 270–361): resolve the
template and data paths freely, sandbox-validate only the output
directory, read the template, list the data directory, keep the entries
whose lowercased extension is `.json` (in listing order), fail when none
remain, then process the items in order.  Directory creation
(`fs.mkdir`) changes no file content and is not traced; the write
targets are. -/
def generateFilesModel (env : BatchEnv) (cwd rootDir : AbsPath)
    (baseData : JsRecord Json)
    (templatePath dataPath outputDir namingRule : String) : BatchResult :=
  let resolvedTemplatePath := resolvePath cwd templatePath
  let resolvedDataPath := resolvePath cwd dataPath
  match validateOutputPath rootDir outputDir with
  | .error e => ⟨[], .error ("Failed to generate files: " ++ e)⟩
  | .ok resolvedOutputDir =>
    match env.readFile resolvedTemplatePath with
    | none => ⟨[], .error "Failed to generate files: template read error"⟩
    | some html =>
      match env.readdir resolvedDataPath with
      | none => ⟨[], .error "Failed to generate files: readdir error"⟩
      | some dataFiles =>
        let jsonFiles := dataFiles.filter
          (fun file => strToLower (extname file) = ".json")
        if jsonFiles = [] then
          ⟨[], .error "No JSON files found in the specified data directory"⟩
        else
          processBatchItems env rootDir resolvedDataPath resolvedOutputDir
            html namingRule baseData jsonFiles 0 [] []

/-! ## Constructor path handling -/

/-- The output-root computation of the `GentlNode` constructor
(src/index.ts lines 47–52): an empty `rootDirectory` is rejected (JS
falsiness), otherwise `path.resolve(rootDirectory)` against the process
working directory. -/
def constructorRootDir (cwd : AbsPath) (rootDirectory : String) :
    Except String AbsPath :=
  if rootDirectory = "" then .error "Root directory is required"
  else .ok (resolvePath cwd rootDirectory)

/-- The include-directory computation of the `GentlNode` constructor
(src/index.ts line 57): `includeDirectory ?
path.resolve(includeDirectory) : undefined` — resolved against the
process working directory; an absent or empty (JS-falsy) value yields
no include directory. -/
def constructorIncludeDir (cwd : AbsPath) (includeDirectory : Option String) :
    Option AbsPath :=
  match includeDirectory with
  | some d => if d = "" then none else some (resolvePath cwd d)
  | none => none

/-- Modelled from the spec: the include-directory resolution the spec
describes — "absolute if given as absolute, else relative to the output
root". -/
def specIncludeDirResolution (rootDir : AbsPath) (d : String) : AbsPath :=
  resolvePath rootDir d

/-! ## Concrete collaborator environments used as witnesses -/

/-- A batch environment over `/tpl.html` and a data directory `/data`
listing `a.json` (valid), `b.json` (malformed JSON) and `c.json`
(valid): the C4 scenario. -/
def parseErrorEnv : BatchEnv where
  readFile := fun p =>
    if p = ["tpl.html"] then some "TPL"
    else if p = ["data", "a.json"] then some "CA"
    else if p = ["data", "b.json"] then some "CB"
    else if p = ["data", "c.json"] then some "CC"
    else none
  readdir := fun p =>
    if p = ["data"] then some ["a.json", "b.json", "c.json"] else none
  parse := fun c => if c = "CB" then none else some [("t", Json.str c)]
  engine := fun html d =>
    html ++ "|" ++ (match recLookup d "t" with | some (.str s) => s | _ => "")

/-- A batch environment with a single valid data file `/data/a.json`,
used to drive the naming-rule escape of `generateFiles`. -/
def escapeEnv : BatchEnv where
  readFile := fun p =>
    if p = ["tpl.html"] then some "TPL"
    else if p = ["data", "a.json"] then some "CA"
    else none
  readdir := fun p => if p = ["data"] then some ["a.json"] else none
  parse := fun _ => some []
  engine := fun html _ => html

/-- A one-entry include catalog mapping `frag.html` to
`/inc/frag.html`, used as a concrete witness environment. -/
def demoIncludeMap : JsRecord AbsPath := [("frag.html", ["inc", "frag.html"])]

/-- A concrete file system holding only `/inc/frag.html`. -/
def demoReadFile : AbsPath → Option String :=
  fun p => if p = ["inc", "frag.html"] then some "RAW" else none

/-- A concrete external engine that renders content against the `n`
field of the scoped data. -/
def demoEngine : String → JsRecord Json → String :=
  fun content d =>
    content ++ "|" ++ (match recLookup d "n" with
      | some (.str s) => s
      | _ => "-")

/-- A fresh resolver state: empty cache and empty traces. -/
def emptyTrace : IncTrace := ⟨[], [], [], []⟩

/-! ## Helper lemmas -/

theorem foldl_normStep_no_special (l : List String) (acc : List String)
    (h : ∀ s ∈ l, s ≠ "." ∧ s ≠ "..") : l.foldl normStep acc = acc ++ l := by
  induction l generalizing acc with
  | nil => simp
  | cons x xs ih =>
    have hx := h x (by simp)
    simp only [List.foldl_cons, normStep, hx.1, hx.2, if_false]
    rw [ih (acc ++ [x]) (fun s hs => h s (by simp [hs]))]
    simp

theorem normalizeAbs_no_special (l : List String)
    (h : ∀ s ∈ l, s ≠ "." ∧ s ≠ "..") : normalizeAbs l = l := by
  simpa using foldl_normStep_no_special l [] h

theorem normalizeAbs_append (a b : List String) :
    normalizeAbs (a ++ b) = b.foldl normStep (normalizeAbs a) := by
  simp [normalizeAbs, List.foldl_append]

theorem dropCommonPrefix_nil_left (t : List String) :
    dropCommonPrefix [] t = ([], t) := by
  cases t <;> rfl

theorem dropCommonPrefix_append (a u v : List String) :
    dropCommonPrefix (a ++ u) (a ++ v) = dropCommonPrefix u v := by
  induction a with
  | nil => simp
  | cons x xs ih => simpa [dropCommonPrefix] using ih

theorem dropCommonPrefix_fst_eq_nil {f t : List String}
    (h : (dropCommonPrefix f t).1 = []) : f <+: t := by
  induction f generalizing t with
  | nil => exact List.nil_prefix
  | cons x xs ih =>
    cases t with
    | nil => simp [dropCommonPrefix] at h
    | cons y ys =>
      by_cases hxy : x = y
      · subst hxy
        simp only [dropCommonPrefix, if_pos rfl] at h
        exact List.cons_prefix_cons.mpr ⟨rfl, ih h⟩
      · simp [dropCommonPrefix, hxy] at h

theorem strStartsWith_append_self (p t : String) :
    strStartsWith (p ++ t) p = true := by
  simp only [strStartsWith, String.toList, String.data_append]
  exact List.isPrefixOf_iff_prefix.mpr (List.prefix_append p.data t.data)

theorem strStartsWith_joinSegs_dotdot (l : List String) :
    strStartsWith (joinSegs (".." :: l)) ".." = true := by
  cases l with
  | nil => decide
  | cons x xs =>
    show strStartsWith (".." ++ "/" ++ joinSegs (x :: xs)) ".." = true
    rw [String.append_assoc]
    exact strStartsWith_append_self ".." ("/" ++ joinSegs (x :: xs))

theorem validateOutputPath_eq (root : AbsPath) (p : String) :
    validateOutputPath root p =
      if strStartsWith (relStr root (resolvePath root p)) ".."
          || isAbsStr (relStr root (resolvePath root p)) then
        .error "must be within the output root directory"
      else .ok (resolvePath root p) := rfl

theorem relSegs_fst_cons (root q : AbsPath)
    (h : (dropCommonPrefix root q).1 ≠ []) :
    ∃ l, relSegs root q = ".." :: l := by
  rcases hfr : (dropCommonPrefix root q).1 with _ | ⟨x, xs⟩
  · exact absurd hfr h
  · exact ⟨List.replicate xs.length ".." ++ (dropCommonPrefix root q).2,
      by simp [relSegs, hfr, List.replicate_succ]⟩

/-- C2 (amended), part "ok implies descendant". -/
theorem validateOutputPath_ok_descendant (root : AbsPath) (p : String)
    (q : AbsPath) (h : validateOutputPath root p = .ok q) :
    q = resolvePath root p ∧ isDescendant root q := by
  rw [validateOutputPath_eq] at h
  split at h
  · cases h
  · rename_i hcond
    cases h
    refine ⟨rfl, ?_⟩
    by_cases hfr : (dropCommonPrefix root (resolvePath root p)).1 = []
    · exact dropCommonPrefix_fst_eq_nil hfr
    · obtain ⟨l, hl⟩ := relSegs_fst_cons root (resolvePath root p) hfr
      exfalso
      apply hcond
      rw [Bool.or_eq_true]
      left
      rw [relStr, hl]
      exact strStartsWith_joinSegs_dotdot l

theorem isError_validateOutputPath (root : AbsPath) (p : String) :
    isError (validateOutputPath root p) =
      (strStartsWith (relStr root (resolvePath root p)) ".."
        || isAbsStr (relStr root (resolvePath root p))) := by
  rw [validateOutputPath_eq]
  split <;> simp_all [isError]

theorem resolvePath_dotdot_x (root : AbsPath) (hn : NormRoot root) :
    resolvePath root "../x" = root.dropLast ++ ["x"] := by
  have habs : isAbsStr "../x" = false := by decide
  have hsplit : splitPath "../x" = ["..", "x"] := by decide
  rw [resolvePath, habs, if_neg (by simp), hsplit, normalizeAbs_append,
    normalizeAbs_no_special root (fun s hs => ⟨(hn s hs).2.1, (hn s hs).2.2.1⟩)]
  simp [normStep]

theorem resolvePath_a_b (root : AbsPath) (hn : NormRoot root) :
    resolvePath root "a/b" = root ++ ["a", "b"] := by
  have habs : isAbsStr "a/b" = false := by decide
  have hsplit : splitPath "a/b" = ["a", "b"] := by decide
  rw [resolvePath, habs, if_neg (by simp), hsplit, normalizeAbs_append,
    normalizeAbs_no_special root (fun s hs => ⟨(hn s hs).2.1, (hn s hs).2.2.1⟩)]
  simp [normStep]

theorem relSegs_self_append (root l : AbsPath) :
    relSegs root (root ++ l) = l := by
  have h := dropCommonPrefix_append root [] l
  simp only [List.append_nil] at h
  simp [relSegs, h, dropCommonPrefix_nil_left]


theorem validateOutputPath_dotdot_x_fails (root : AbsPath) (hn : NormRoot root)
    (hne : root ≠ []) (hlast : root.getLast? ≠ some "x") :
    isError (validateOutputPath root "../x") = true := by
  obtain ⟨a, g, rfl⟩ : ∃ a g, root = a ++ [g] :=
    ⟨root.dropLast, root.getLast hne, (List.dropLast_append_getLast hne).symm⟩
  have hgx : g ≠ "x" := by
    intro h; apply hlast; rw [List.getLast?_concat, h]
  rw [isError_validateOutputPath, resolvePath_dotdot_x _ hn,
    List.dropLast_concat]
  have hrel : relSegs (a ++ [g]) (a ++ ["x"]) = ["..", "x"] := by
    simp [relSegs, dropCommonPrefix_append, dropCommonPrefix, hgx]
  rw [relStr, hrel]
  simp [strStartsWith_joinSegs_dotdot]

theorem validateOutputPath_a_b (root : AbsPath) (hn : NormRoot root) :
    validateOutputPath root "a/b" = .ok (root ++ ["a", "b"]) := by
  rw [validateOutputPath_eq, resolvePath_a_b root hn, relStr,
    relSegs_self_append]
  have h1 : strStartsWith (joinSegs ["a", "b"]) ".." = false := by decide
  have h2 : isAbsStr (joinSegs ["a", "b"]) = false := by decide
  rw [h1, h2]
  simp

/-- C2 (amended): `validateOutputPath` returns the resolved candidate
`resolve(root, p)`, which is then equal to or a descendant of the root,
or throws; it throws exactly when the string form of the relative path
from the root to the resolved candidate starts with the two characters
`..` (which also rejects sibling names such as `..x` whose first segment
merely begins with two dots) or is absolute; `validate("../x", root)`
fails for every normalized root that is not the file-system root and
whose last segment is not `x`; `validate("a/b", root)` returns
`root/a/b`. -/
theorem validateOutputPath_spec (root : AbsPath) (p : String) :
    (∀ q, validateOutputPath root p = .ok q →
        q = resolvePath root p ∧ isDescendant root q) ∧
    (isError (validateOutputPath root p) =
      (strStartsWith (relStr root (resolvePath root p)) ".."
        || isAbsStr (relStr root (resolvePath root p)))) ∧
    (NormRoot root → root ≠ [] → root.getLast? ≠ some "x" →
      isError (validateOutputPath root "../x") = true) ∧
    (NormRoot root → validateOutputPath root "a/b" = .ok (root ++ ["a", "b"])) :=
  ⟨fun q h => validateOutputPath_ok_descendant root p q h,
   isError_validateOutputPath root p,
   fun hn hne hlast => validateOutputPath_dotdot_x_fails root hn hne hlast,
   fun hn => validateOutputPath_a_b root hn⟩

/-- Witness for C2 at the concrete root `/h/out`: `validate("a/b")`
returns `/h/out/a/b`, a descendant of the root, and `validate("../x")`
throws. -/
theorem validateOutputPath_spec_witness :
    validateOutputPath ["h", "out"] "a/b" = .ok ["h", "out", "a", "b"] ∧
    isDescendant ["h", "out"] ["h", "out", "a", "b"] ∧
    isError (validateOutputPath ["h", "out"] "../x") = true := by
  have hn : NormRoot ["h", "out"] := by unfold NormRoot; decide
  refine ⟨(validateOutputPath_spec ["h", "out"] "a/b").2.2.2 hn, ?_, ?_⟩
  · exact ((validateOutputPath_spec ["h", "out"] "a/b").1 ["h", "out", "a", "b"]
      ((validateOutputPath_spec ["h", "out"] "a/b").2.2.2 hn)).2
  · exact (validateOutputPath_spec ["h", "out"] "p").2.2.1 hn (by decide) (by decide)

/-- C2 counterexample: at root `/r` and candidate `..x`, the code
throws, although the relative path from the root to the resolved
candidate (`..x`) does not begin with a parent-directory segment and is
not absolute — indeed the resolved candidate `/r/..x` is a descendant of
the root.  The spec's "throws exactly when" characterization is
therefore false as stated. -/
theorem validateOutputPath_spec_counterexample :
    isError (validateOutputPath ["r"] "..x") = true ∧
    specRejectCondition ["r"] "..x" = false ∧
    isDescendant ["r"] (resolvePath ["r"] "..x") :=
  ⟨by decide, by decide, by decide⟩

theorem recLookup_cons {α : Type} (a : String × α) (r : JsRecord α)
    (k : String) :
    recLookup (a :: r) k = if a.1 = k then some a.2 else recLookup r k := by
  by_cases h : a.1 = k <;> simp [recLookup, List.find?_cons, h]

theorem recLookup_eq_none {α : Type} {r : JsRecord α} {k : String}
    (h : k ∉ r.map Prod.fst) : recLookup r k = none := by
  unfold recLookup
  have : r.find? (fun p => p.1 = k) = none := by
    rw [List.find?_eq_none]
    intro p hp
    simp only [decide_eq_true_eq]
    intro hk
    exact h (List.mem_map.mpr ⟨p, hp, hk⟩)
  rw [this]

theorem recLookup_setKey_self {α : Type} (r : JsRecord α) (k : String)
    (v : α) : recLookup (setKey r k v) k = some v := by
  unfold setKey
  by_cases hs : (recLookup r k).isSome
  · rw [if_pos hs]
    induction r with
    | nil => simp [recLookup] at hs
    | cons a r ih =>
      by_cases h : a.1 = k
      · simp only [List.map_cons, if_pos h]
        rw [recLookup_cons]
        simp
      · simp only [List.map_cons, if_neg h]
        rw [recLookup_cons, if_neg h]
        rw [recLookup_cons, if_neg h] at hs
        exact ih hs
  · rw [if_neg hs]
    have hnone : r.find? (fun p => p.1 = k) = none := by
      unfold recLookup at hs
      cases hfind : r.find? (fun p => p.1 = k) with
      | none => rfl
      | some p => rw [hfind] at hs; simp at hs
    unfold recLookup
    rw [List.find?_append, hnone]
    simp [List.find?]

theorem recLookup_setKey_ne {α : Type} (r : JsRecord α) (k : String)
    (v : α) (k' : String) (h : k' ≠ k) :
    recLookup (setKey r k v) k' = recLookup r k' := by
  unfold setKey
  split
  · rename_i hs
    clear hs
    induction r with
    | nil => simp
    | cons a r ih =>
      simp only [List.map_cons]
      by_cases ha : a.1 = k
      · rw [if_pos ha, recLookup_cons, recLookup_cons,
          if_neg (show ¬((k, v) : String × α).1 = k' from fun hh => h hh.symm),
          if_neg (show ¬a.1 = k' from fun hh => h (ha.symm.trans hh).symm)]
        exact ih
      · rw [if_neg ha, recLookup_cons, recLookup_cons]
        by_cases hk' : a.1 = k'
        · rw [if_pos hk', if_pos hk']
        · rw [if_neg hk', if_neg hk']
          exact ih
  · unfold recLookup
    rw [List.find?_append]
    have hdec : (decide (k = k')) = false :=
      decide_eq_false (fun hh => h hh.symm)
    have hone : ([(k, v)] : JsRecord α).find? (fun p => p.1 = k') = none := by
      simp [List.find?, hdec]
    rw [hone, Option.or_none]

/-- C3 (confirmed): `mergeData A B` looks up to `B`'s value when the key
is a key of `B` and to `A`'s value otherwise; values (nested objects
included) are taken wholesale from the winning record. -/
theorem mergeData_lookup {α : Type} (A B : JsRecord α) (k : String)
    (hB : (B.map Prod.fst).Nodup) :
    recLookup (mergeData A B) k = (recLookup B k).or (recLookup A k) := by
  induction B generalizing A with
  | nil => simp [mergeData, recLookup]
  | cons b B' ih =>
    rw [List.map_cons, List.nodup_cons] at hB
    obtain ⟨hb, hnodup⟩ := hB
    have hstep : mergeData A (b :: B') = mergeData (setKey A b.1 b.2) B' := by
      simp [mergeData]
    rw [hstep, ih (setKey A b.1 b.2) hnodup, recLookup_cons]
    by_cases hk : b.1 = k
    · subst hk
      rw [if_pos rfl]
      rw [recLookup_eq_none hb, recLookup_setKey_self]
      simp
    · rw [if_neg hk, recLookup_setKey_ne A b.1 b.2 k (fun hh => hk hh.symm)]

/-- Witness for C3 at concrete records with a colliding key `k`: the
merge takes `B`'s value for `k`. -/
theorem mergeData_lookup_witness :
    recLookup (mergeData [("a", 1), ("k", 2)] [("k", 9), ("b", 3)]) "k" =
      ((recLookup ([("k", 9), ("b", 3)] : JsRecord Nat) "k").or
        (recLookup [("a", 1), ("k", 2)] "k")) :=
  mergeData_lookup [("a", 1), ("k", 2)] [("k", 9), ("b", 3)] "k" (by decide)

/-- C1 (code bug): in batch generation the naming-rule expansion is
joined onto the validated output directory and written with no further
validation, so an expansion containing parent-directory segments writes
outside the output root without any error: with root `/out`, output
directory `sub` and naming rule `../../evil.html`, the single write of
the batch targets `/evil.html`, which is not under `/out`, and the call
reports success. -/
theorem generateFiles_naming_rule_escapes_root :
    generateFilesModel escapeEnv [] ["out"] [] "/tpl.html" "/data" "sub"
        "../../evil.html" =
      ⟨[(["evil.html"], "TPL")], .ok ["../evil.html"]⟩ ∧
    ¬ isDescendant ["out"] ["evil.html"] :=
  ⟨rfl, by decide⟩

/-- C7 (confirmed): the naming-rule expansion is deterministic and
matches the spec's three examples; in general a `{data.<path>}` token
whose sequential lookup comes back `undefined` resolves to the literal
string `"undefined"`. -/
theorem applyNamingRule_examples :
    applyNamingRule "item-{index}.html" ⟨3, .obj [], none⟩ = "item-3.html" ∧
    applyNamingRule "{data.meta.id}.html"
        ⟨0, .obj [("meta", .obj [("id", .str "x7")])], none⟩ = "x7.html" ∧
    applyNamingRule "{data.a.b}.html" ⟨0, .obj [], none⟩ = "undefined.html" ∧
    (∀ (data : Json) (path : String), getNestedProperty data path = none →
      tokenValueString (getNestedProperty data path) = "undefined") :=
  ⟨by decide, by decide, by decide, fun data path h => by rw [h]; rfl⟩

/-- Witness for C7's general clause at the empty data record and path
`a.b`. -/
theorem applyNamingRule_examples_witness :
    tokenValueString (getNestedProperty (Json.obj []) "a.b") = "undefined" :=
  applyNamingRule_examples.2.2.2 (Json.obj []) "a.b" rfl

/-- C10 (confirmed): a `{data.<path>}` token whose lookup succeeds with
a value stringifying to the empty string expands to `"undefined"` (the
`||` fallback fires on the falsy empty string), not to the empty
string. -/
theorem applyNamingRule_empty_value_undefined :
    applyNamingRule "{data.x}.html" ⟨0, .obj [("x", .str "")], none⟩ =
      "undefined.html" ∧
    (∀ v : Json, v ≠ .null → jsToString v = "" →
      tokenValueString (some v) = "undefined") := by
  refine ⟨by decide, fun v hv h => ?_⟩
  cases v with
  | null => exact absurd rfl hv
  | bool b => simp [tokenValueString, h]
  | num n => simp [tokenValueString, h]
  | str s => simp [tokenValueString, h]
  | arr elems => simp [tokenValueString, h]
  | obj fields => simp [tokenValueString, h]

/-- Witness for C10's general clause at the empty-string value. -/
theorem applyNamingRule_empty_value_undefined_witness :
    tokenValueString (some (Json.str "")) = "undefined" :=
  applyNamingRule_empty_value_undefined.2 (Json.str "")
    (fun h => Json.noConfusion h) rfl

/-- C8 counterexample: with working directory `/w` and constructor
arguments `rootDirectory = "out"`, `includeDirectory = "inc"`, the
output root is `/w/out` but the include directory resolves to `/w/inc`
(relative to the working directory), not to `/w/out/inc` as the spec's
"relative to the output root" rule predicts. -/
theorem constructorIncludeDir_counterexample :
    constructorRootDir ["w"] "out" = .ok ["w", "out"] ∧
    constructorIncludeDir ["w"] (some "inc") = some ["w", "inc"] ∧
    some (specIncludeDirResolution ["w", "out"] "inc") ≠
      constructorIncludeDir ["w"] (some "inc") :=
  ⟨by decide, by decide, by decide⟩

/-- C8 (amended): a supplied include directory is resolved with
`path.resolve` against the process working directory: an absolute path
is used as-is (normalized, independent of the working directory), and a
relative path is resolved relative to the working directory — not the
output root. -/
theorem constructorIncludeDir_resolution (cwd cwd' : AbsPath) (d : String)
    (hd : d ≠ "") :
    (isAbsStr d = true →
      constructorIncludeDir cwd (some d) = some (normalizeAbs (splitPath d)) ∧
      constructorIncludeDir cwd (some d) = constructorIncludeDir cwd' (some d)) ∧
    (isAbsStr d = false →
      constructorIncludeDir cwd (some d) =
        some (normalizeAbs (cwd ++ splitPath d))) := by
  refine ⟨fun habs => ⟨?_, ?_⟩, fun habs => ?_⟩ <;>
    simp [constructorIncludeDir, hd, resolvePath, habs]

/-- Witness for C8's amended theorem: an absolute include directory
`/inc` ignores the working directory; a relative one resolves under it. -/
theorem constructorIncludeDir_resolution_witness :
    constructorIncludeDir ["w"] (some "/inc") =
      constructorIncludeDir ["w2"] (some "/inc") ∧
    constructorIncludeDir ["w"] (some "inc") =
      some (normalizeAbs (["w"] ++ splitPath "inc")) :=
  ⟨((constructorIncludeDir_resolution ["w"] ["w2"] "/inc" (by decide)).1
      (by decide)).2,
   (constructorIncludeDir_resolution ["w"] ["w2"] "inc" (by decide)).2
      (by decide)⟩

/-- C9 (confirmed): `setBaseData` is atomic — when the read fails or the
content is malformed JSON, the call throws and the stored base data is
unchanged, so subsequent `getBaseData` calls and generation merges use
the prior value. -/
theorem setBaseData_atomic (readFile : AbsPath → Option String)
    (parse : String → Option (JsRecord Json)) (cwd : AbsPath)
    (st : GentlState) (p : String)
    (h : readFile (resolvePath cwd p) = none ∨
      ∃ c, readFile (resolvePath cwd p) = some c ∧ parse c = none) :
    (setBaseData readFile parse cwd st p).2.isSome = true ∧
    (setBaseData readFile parse cwd st p).1 = st ∧
    getBaseData (setBaseData readFile parse cwd st p).1 = getBaseData st ∧
    (∀ A : JsRecord Json,
      mergeData A (getBaseData (setBaseData readFile parse cwd st p).1) =
        mergeData A (getBaseData st)) := by
  rcases h with h | ⟨c, hc, hparse⟩
  · simp [setBaseData, h]
  · simp [setBaseData, hc, hparse]

/-- Witness for C9: a failing read leaves the stored base data in
place. -/
theorem setBaseData_atomic_witness :
    (setBaseData (fun _ => none) (fun _ => some []) []
        ⟨[("k", Json.num 1)]⟩ "bd.json").2.isSome = true ∧
    (setBaseData (fun _ => none) (fun _ => some []) []
        ⟨[("k", Json.num 1)]⟩ "bd.json").1 = ⟨[("k", Json.num 1)]⟩ := by
  have h := setBaseData_atomic (fun _ => none) (fun _ => some []) []
    ⟨[("k", Json.num 1)]⟩ "bd.json" (Or.inl rfl)
  exact ⟨h.1, h.2.1⟩

/-- C5 (confirmed): for a key present in the catalog, resolving twice
with two (possibly different) scoped-data records issues exactly one
file read — the raw pre-render content is cached on the first resolution
and reused — but invokes the external engine once per resolution, each
time with the raw content and that resolution's scoped data. -/
theorem includeIo_caches_pre_render
    (includeFileMap : JsRecord AbsPath)
    (handler : Option (String → Option (JsRecord Json) → String))
    (readFile : AbsPath → Option String)
    (engine : String → JsRecord Json → String)
    (key : String) (filePath : AbsPath) (content : String)
    (d1 d2 : Option (JsRecord Json)) (st0 st1 st2 : IncTrace)
    (res1 res2 : Except String String)
    (hmap : recLookup includeFileMap key = some filePath)
    (hread : readFile filePath = some content)
    (hcache : recLookup st0.fileContentCache key = none)
    (h1 : includeIoModel includeFileMap handler readFile engine key d1 st0 =
      (st1, res1))
    (h2 : includeIoModel includeFileMap handler readFile engine key d2 st1 =
      (st2, res2)) :
    res1 = .ok (engine content (d1.getD [])) ∧
    res2 = .ok (engine content (d2.getD [])) ∧
    st1.readsPerformed = st0.readsPerformed ++ [filePath] ∧
    st2.readsPerformed = st1.readsPerformed ∧
    st1.engineCalls = st0.engineCalls ++ [(content, d1.getD [])] ∧
    st2.engineCalls = st1.engineCalls ++ [(content, d2.getD [])] := by
  simp only [includeIoModel, hmap, hcache, hread, Prod.mk.injEq] at h1
  obtain ⟨hst1, hres1⟩ := h1
  subst hst1
  simp only [includeIoModel, hmap, recLookup_setKey_self, Prod.mk.injEq] at h2
  obtain ⟨hst2, hres2⟩ := h2
  subst hst2
  exact ⟨hres1.symm, hres2.symm, rfl, rfl, rfl, rfl⟩

/-- Witness for C5: resolving `frag.html` twice with scoped data `A`
then `B` reads `/inc/frag.html` once but renders twice, once per scoped
record. -/
theorem includeIo_caches_pre_render_witness :
    (includeIoModel demoIncludeMap none demoReadFile demoEngine "frag.html"
        (some [("n", Json.str "A")]) emptyTrace).2 = .ok "RAW|A" ∧
    (includeIoModel demoIncludeMap none demoReadFile demoEngine "frag.html"
        (some [("n", Json.str "B")])
        (includeIoModel demoIncludeMap none demoReadFile demoEngine
          "frag.html" (some [("n", Json.str "A")]) emptyTrace).1).2 =
      .ok "RAW|B" ∧
    (includeIoModel demoIncludeMap none demoReadFile demoEngine "frag.html"
        (some [("n", Json.str "B")])
        (includeIoModel demoIncludeMap none demoReadFile demoEngine
          "frag.html" (some [("n", Json.str "A")]) emptyTrace).1).1.readsPerformed =
      [["inc", "frag.html"]] ∧
    (includeIoModel demoIncludeMap none demoReadFile demoEngine "frag.html"
        (some [("n", Json.str "B")])
        (includeIoModel demoIncludeMap none demoReadFile demoEngine
          "frag.html" (some [("n", Json.str "A")]) emptyTrace).1).1.engineCalls =
      [("RAW", [("n", Json.str "A")]), ("RAW", [("n", Json.str "B")])] := by
  obtain ⟨ha, hb, hc, hd, he, hf⟩ := includeIo_caches_pre_render
    demoIncludeMap none demoReadFile demoEngine "frag.html"
    ["inc", "frag.html"] "RAW"
    (some [("n", Json.str "A")]) (some [("n", Json.str "B")])
    emptyTrace _ _ _ _ rfl rfl rfl rfl rfl
  refine ⟨ha.trans rfl, hb.trans rfl, hd.trans (hc.trans rfl), hf.trans ?_⟩
  rw [he]
  rfl

/-- C6 (confirmed): for a key absent from the catalog, the resolver
invokes the configured not-found handler with the key and scoped data
and returns its result; with no handler it throws an error naming the
key, after logging it at error level (both branches also log the miss
at warn level first). -/
theorem includeIo_not_found
    (includeFileMap : JsRecord AbsPath)
    (readFile : AbsPath → Option String)
    (engine : String → JsRecord Json → String)
    (key : String) (d : Option (JsRecord Json)) (st0 : IncTrace)
    (habsent : recLookup includeFileMap key = none) :
    (∀ handler,
      includeIoModel includeFileMap (some handler) readFile engine key d st0 =
        ({ st0 with logs := st0.logs ++
            [("warn", "Include file not found: " ++ key),
             ("info", "Using include not found handler for key: " ++ key)] },
         .ok (handler key d))) ∧
    (includeIoModel includeFileMap none readFile engine key d st0 =
      ({ st0 with logs := st0.logs ++
          [("warn", "Include file not found: " ++ key),
           ("error",
            "Include file not found and no include not found handler provided: "
              ++ key)] },
       .error
        ("Include file not found and no include not found handler provided: "
          ++ key))) := by
  constructor
  · intro handler
    simp [includeIoModel, habsent]
  · simp [includeIoModel, habsent]

/-- Witness for C6: the missing key `missing.html` with a handler
returning `<X/>` yields that literal string; without a handler the call
throws the include-not-found error naming the key, which is also logged
at error level. -/
theorem includeIo_not_found_witness :
    (includeIoModel [] (some fun _ _ => "<X/>") demoReadFile demoEngine
        "missing.html" none emptyTrace).2 = .ok "<X/>" ∧
    (includeIoModel [] none demoReadFile demoEngine "missing.html" none
        emptyTrace).2 =
      .error
        "Include file not found and no include not found handler provided: missing.html" ∧
    ("error",
      "Include file not found and no include not found handler provided: missing.html") ∈
      (includeIoModel [] none demoReadFile demoEngine "missing.html" none
        emptyTrace).1.logs := by
  have h := includeIo_not_found [] demoReadFile demoEngine "missing.html"
    none emptyTrace rfl
  refine ⟨?_, ?_, ?_⟩
  · exact (congrArg Prod.snd (h.1 (fun _ _ => "<X/>"))).trans rfl
  · exact (congrArg Prod.snd h.2).trans rfl
  · rw [congrArg Prod.fst h.2]
    simp

/-- C4 (confirmed): over a directory whose `.json` listing yields three
data files (in listing order `f1, f2, f3`), if the second file's content
fails to parse then batch generation performs exactly the one write of
the first item — at the item-0 naming-rule expansion, left in place —
and aborts with the parse error, writing nothing for items 2 or 3; and
when all three parse, the writes and the returned root-relative list are
exactly the three items in processing order. -/
theorem generateFiles_batch_abort
    (env : BatchEnv) (cwd rootDir : AbsPath) (base : JsRecord Json)
    (tplP dataP outDir rule : String) (outAbs : AbsPath)
    (f1 f2 f3 : String) (tpl c1 c2 : String) (r1 : JsRecord Json)
    (hval : validateOutputPath rootDir outDir = .ok outAbs)
    (htpl : env.readFile (resolvePath cwd tplP) = some tpl)
    (hdir : env.readdir (resolvePath cwd dataP) = some [f1, f2, f3])
    (hx1 : strToLower (extname f1) = ".json")
    (hx2 : strToLower (extname f2) = ".json")
    (hx3 : strToLower (extname f3) = ".json")
    (hr1 : env.readFile (resolvePath cwd dataP ++ [f1]) = some c1)
    (hp1 : env.parse c1 = some r1)
    (hr2 : env.readFile (resolvePath cwd dataP ++ [f2]) = some c2) :
    (env.parse c2 = none →
      generateFilesModel env cwd rootDir base tplP dataP outDir rule =
        ⟨[(joinPath outAbs (applyNamingRule rule
              ⟨0, .obj (mergeData r1 base), some (fileStem f1)⟩),
            env.engine tpl (mergeData r1 base))],
          .error ("Failed to generate files: parse error: " ++ f2)⟩) ∧
    (∀ (c3 : String) (r2 r3 : JsRecord Json),
      env.parse c2 = some r2 →
      env.readFile (resolvePath cwd dataP ++ [f3]) = some c3 →
      env.parse c3 = some r3 →
      generateFilesModel env cwd rootDir base tplP dataP outDir rule =
        ⟨[(joinPath outAbs (applyNamingRule rule
              ⟨0, .obj (mergeData r1 base), some (fileStem f1)⟩),
            env.engine tpl (mergeData r1 base)),
          (joinPath outAbs (applyNamingRule rule
              ⟨1, .obj (mergeData r2 base), some (fileStem f2)⟩),
            env.engine tpl (mergeData r2 base)),
          (joinPath outAbs (applyNamingRule rule
              ⟨2, .obj (mergeData r3 base), some (fileStem f3)⟩),
            env.engine tpl (mergeData r3 base))],
          .ok [relStr rootDir (joinPath outAbs (applyNamingRule rule
                 ⟨0, .obj (mergeData r1 base), some (fileStem f1)⟩)),
               relStr rootDir (joinPath outAbs (applyNamingRule rule
                 ⟨1, .obj (mergeData r2 base), some (fileStem f2)⟩)),
               relStr rootDir (joinPath outAbs (applyNamingRule rule
                 ⟨2, .obj (mergeData r3 base), some (fileStem f3)⟩))]⟩) := by
  constructor
  · intro hp2
    simp only [generateFilesModel, hval, htpl, hdir, List.filter, hx1, hx2,
      hx3, decide_True, processBatchItems, hr1, hp1, hr2, hp2]
    simp
  · intro c3 r2 r3 hp2 hr3 hp3
    simp only [generateFilesModel, hval, htpl, hdir, List.filter, hx1, hx2,
      hx3, decide_True, processBatchItems, hr1, hp1, hr2, hp2, hr3, hp3]
    simp

/-- Witness for C4 over `parseErrorEnv` (3 json files, 2nd malformed):
exactly one write happens — item 0's file, from `a.json` — and the call
aborts with the parse error for `b.json`. -/
theorem generateFiles_batch_abort_witness :
    generateFilesModel parseErrorEnv [] ["out"] [] "/tpl.html" "/data" "sub"
        "item-{index}-{fileName}.html" =
      ⟨[(["out", "sub", "item-0-a.html"], "TPL|CA")],
        .error "Failed to generate files: parse error: b.json"⟩ := by
  have h := (generateFiles_batch_abort parseErrorEnv [] ["out"] []
    "/tpl.html" "/data" "sub" "item-{index}-{fileName}.html" ["out", "sub"]
    "a.json" "b.json" "c.json" "TPL" "CA" "CB" [("t", Json.str "CA")]
    rfl rfl rfl rfl rfl rfl rfl rfl rfl).1 rfl
  exact h.trans (by rfl)
